import Mathlib

/-!
# Verification of the `studio` local secrets vault

Shallow embedding of the vault core of the `studio` password manager:

* `src/unnamed/part_007` (`src/lib/crypto.ts`): PBKDF2 key derivation,
  AES-GCM encryption helpers, base64 utilities, `SecureVaultManager`,
  `calculatePasswordStrength`;
* `src/src/services/MasterPasswordService.ts`: the immutable per-account
  master-password binding (setup / unlock);
* `src/src/services/SecureStorageService.ts`: the encrypted record store
  (save / get / stats / export / import / merge).

Machine-level conventions of the embedding:

* Bytes (`Uint8Array` contents) are `List Nat` with entries `< 256`.
* The Web Crypto primitives (`crypto.subtle`) are an external platform
  collaborator, not code of this repository; they are modelled as an ideal
  authenticated cipher (AEAD): a ciphertext is either a genuine encryption
  — remembering the key, IV, and plaintext — or arbitrary bytes, and
  decryption succeeds exactly on a genuine encryption under the same key
  and IV.  PBKDF2 is modelled as an injective key constructor from
  (password, salt, iterations), per its determinism stated in the spec.
* Randomness (`crypto.getRandomValues`, `generateKey`) is passed to each
  operation as an explicit argument.
* Timers (`setTimeout`) are modelled by a stored absolute deadline, with
  the current time `now` passed explicitly.
* The base64 transport of the repository (`btoa`/`atob`) is embedded for real
  below and proved to round-trip.
-/

/-- Byte buffers (`Uint8Array` contents): lists of naturals, entries `< 256`. -/
abbrev Bytes := List Nat

/-! ## Base64 (`btoa` / `atob` from `src/unnamed/part_007`)

`arrayBufferToBase64` converts bytes to a binary string and calls `btoa`;
`base64ToArrayBuffer` calls `atob` and reads char codes back.  We embed the
composites byte-list-to-string and string-to-byte-list directly. -/

/-- The RFC 4648 base64 alphabet used by `btoa`/`atob`. -/
def b64Chars : List Char :=
  "ABCDEFGHIJKLMNOPQRSTUVWXYZabcdefghijklmnopqrstuvwxyz0123456789+/".data

/-- Character for a 6-bit group. -/
def b64Char (n : Nat) : Char := b64Chars.getD n 'A'

/-- Scan for the index of a character in the alphabet. -/
def b64IndexAux (c : Char) : List Char → Nat → Option Nat
  | [], _ => none
  | d :: ds, i => if d = c then some i else b64IndexAux c ds (i + 1)

/-- Index of a character in the base64 alphabet (`none` if not present). -/
def b64Index (c : Char) : Option Nat := b64IndexAux c b64Chars 0

/-- Embedding of `btoa` on a byte list: 3 bytes become 4 characters, with `=` padding. -/
def b64EncodeBytes : List Nat → List Char
  | a :: b :: c :: rest =>
    b64Char (a / 4) :: b64Char (a % 4 * 16 + b / 16) ::
      b64Char (b % 16 * 4 + c / 64) :: b64Char (c % 64) :: b64EncodeBytes rest
  | [a, b] => [b64Char (a / 4), b64Char (a % 4 * 16 + b / 16), b64Char (b % 16 * 4), '=']
  | [a] => [b64Char (a / 4), b64Char (a % 4 * 16), '=', '=']
  | [] => []

/-- Embedding of `arrayBufferToBase64` (part_007): bytes → binary string → `btoa`. -/
def arrayBufferToBase64 (buffer : Bytes) : String := ⟨b64EncodeBytes buffer⟩

/-- Embedding of `atob` on a character list; `none` models the `InvalidCharacterError`
`atob` throws on malformed input. -/
def b64DecodeChars : List Char → Option (List Nat)
  | [] => some []
  | c0 :: c1 :: c2 :: c3 :: rest =>
    match b64Index c0, b64Index c1 with
    | some i0, some i1 =>
      if c2 = '=' then
        if c3 = '=' && rest.isEmpty then some [i0 * 4 + i1 / 16] else none
      else
        match b64Index c2 with
        | some i2 =>
          if c3 = '=' then
            if rest.isEmpty then some [i0 * 4 + i1 / 16, i1 % 16 * 16 + i2 / 4] else none
          else
            match b64Index c3 with
            | some i3 =>
              match b64DecodeChars rest with
              | some tl =>
                some ((i0 * 4 + i1 / 16) :: (i1 % 16 * 16 + i2 / 4) :: (i2 % 4 * 64 + i3) :: tl)
              | none => none
            | none => none
        | none => none
    | _, _ => none
  | _ => none

/-- Embedding of `base64ToArrayBuffer` (part_007): `atob` then char codes. -/
def base64ToArrayBuffer (base64 : String) : Option Bytes := b64DecodeChars base64.data

theorem b64Index_b64Char {n : Nat} (h : n < 64) : b64Index (b64Char n) = some n := by
  revert h
  have : ∀ m < 64, b64Index (b64Char m) = some m := by decide
  exact this n

theorem b64Char_ne_eq {n : Nat} (h : n < 64) : b64Char n ≠ '=' := by
  revert h
  have : ∀ m < 64, b64Char m ≠ '=' := by decide
  exact this n

/-- Base64 round-trip: decoding an encoding recovers the original bytes. -/
theorem b64DecodeChars_b64EncodeBytes :
    ∀ bs : List Nat, (∀ x ∈ bs, x < 256) → b64DecodeChars (b64EncodeBytes bs) = some bs
  | [], _ => rfl
  | [a], h => by
    have ha : a < 256 := h a (by simp)
    simp only [b64EncodeBytes, b64DecodeChars]
    rw [b64Index_b64Char (by omega), b64Index_b64Char (by omega)]
    simp only [if_true, decide_True, eq_self_iff_true, List.isEmpty_nil, Bool.and_true,
      Option.some.injEq, List.cons.injEq, and_true]
    omega
  | [a, b], h => by
    have ha : a < 256 := h a (by simp)
    have hb : b < 256 := h b (by simp)
    have e2 : b64Char (b % 16 * 4) ≠ '=' := b64Char_ne_eq (by omega)
    simp only [b64EncodeBytes, b64DecodeChars]
    rw [b64Index_b64Char (by omega), b64Index_b64Char (by omega),
      b64Index_b64Char (by omega)]
    simp only [e2, if_false, ite_false, List.isEmpty_nil, if_true, ite_true,
      Option.some.injEq, List.cons.injEq, and_true]
    refine ⟨by omega, by omega⟩
  | a :: b :: c :: d :: rest, h => by
    have ha : a < 256 := h a (by simp)
    have hb : b < 256 := h b (by simp)
    have hc : c < 256 := h c (by simp)
    have ih := b64DecodeChars_b64EncodeBytes (d :: rest)
      (fun x hx => h x (by simp at hx ⊢; tauto))
    have e2 : b64Char (b % 16 * 4 + c / 64) ≠ '=' := b64Char_ne_eq (by omega)
    have e3 : b64Char (c % 64) ≠ '=' := b64Char_ne_eq (by omega)
    simp only [b64EncodeBytes, b64DecodeChars]
    rw [b64Index_b64Char (by omega), b64Index_b64Char (by omega),
      b64Index_b64Char (by omega), b64Index_b64Char (by omega)]
    simp only [e2, e3, if_false, ite_false, ih, Option.some.injEq, List.cons.injEq,
      and_true]
    refine ⟨by omega, by omega, by omega⟩
  | [a, b, c], h => by
    have ha : a < 256 := h a (by simp)
    have hb : b < 256 := h b (by simp)
    have hc : c < 256 := h c (by simp)
    have e2 : b64Char (b % 16 * 4 + c / 64) ≠ '=' := b64Char_ne_eq (by omega)
    have e3 : b64Char (c % 64) ≠ '=' := b64Char_ne_eq (by omega)
    simp only [b64EncodeBytes, b64DecodeChars]
    rw [b64Index_b64Char (by omega), b64Index_b64Char (by omega),
      b64Index_b64Char (by omega), b64Index_b64Char (by omega)]
    simp only [e2, e3, if_false, ite_false, Option.some.injEq, List.cons.injEq,
      and_true]
    refine ⟨by omega, by omega, by omega⟩

/-! ## Symbolic Web Crypto model (`src/unnamed/part_007`, i.e. `src/lib/crypto.ts`)

`crypto.subtle` is a platform primitive, not repository code.  It is
modelled as an ideal authenticated cipher: PBKDF2-derived keys are an
injective constructor of (password, salt, iterations) — the spec states
derivation is deterministic in these — and an AES-GCM ciphertext remembers
the key, IV and plaintext it was built from, or is arbitrary (tampered)
bytes.  Decryption succeeds exactly on a genuine encryption under the same
key and IV; anything else is an authentication failure. -/

/-- An opaque `CryptoKey` handle: either a PBKDF2-derived AES-GCM key or a
key identified by its raw 256-bit material (random item keys and imported
keys; `importKey (exportKey k)` is functionally the same key `k`). -/
inductive CryptoKey
  | derived (password : String) (salt : Bytes) (iterations : Nat)
  | raw (bytes : Bytes)
  deriving DecidableEq

/-- Ideal AES-GCM ciphertext: a genuine encryption (which decrypts only
under the matching key and IV), or arbitrary bytes (tampered/corrupted —
never decrypts). -/
inductive CipherText
  | enc (key : CryptoKey) (iv : Bytes) (plaintext : String)
  | junk (bytes : Bytes)
  deriving DecidableEq

/-- Embedding of `EncryptedData {data, iv, salt?}` from part_007.  The base64 transport
of the ciphertext is elided (the ciphertext is symbolic); `iv` and `salt`
are kept as byte lists. -/
structure EncryptedData where
  data : CipherText
  iv : Bytes
  salt : Option Bytes := none
  deriving DecidableEq

/-- Embedding of `DerivedKey {key, salt}` from part_007. -/
structure DerivedKey where
  key : CryptoKey
  salt : Bytes
  deriving DecidableEq

/-- Embedding of `deriveKeyFromPassword(password, salt?, iterations=100000)`: uses the
given salt or, when absent, the 32 fresh random bytes passed explicitly as
`freshSalt`. -/
def deriveKeyFromPassword (password : String) (salt : Option Bytes) (freshSalt : Bytes)
    (iterations : Nat := 100000) : DerivedKey :=
  let keySalt := salt.getD freshSalt
  { key := .derived password keySalt iterations, salt := keySalt }

/-- Embedding of `encryptData(data, key)`: AES-GCM encryption with a fresh random 96-bit
IV, passed explicitly as `iv`. -/
def encryptData (data : String) (key : CryptoKey) (iv : Bytes) : EncryptedData :=
  { data := .enc key iv data, iv := iv }

/-- Embedding of `decryptData(encryptedData, key)`: succeeds exactly on a genuine
encryption under the same key and IV; otherwise the GCM tag check fails and
the wrapper throws its single error message. -/
def decryptData (encryptedData : EncryptedData) (key : CryptoKey) : Except String String :=
  match encryptedData.data with
  | .enc k iv pt =>
    if k = key ∧ iv = encryptedData.iv then .ok pt
    else .error "Decryption failed - invalid key or corrupted data"
  | .junk _ => .error "Decryption failed - invalid key or corrupted data"

/-- Embedding of `generateItemKey()`: a fresh random AES-GCM key; the randomness is the
explicit `randomBytes` argument. -/
def generateItemKey (randomBytes : Bytes) : CryptoKey := .raw randomBytes

/-- Embedding of `exportKey(key)`: raw bytes of a symmetric key.  Only ever applied to
item keys (`CryptoKey.raw`) in the repository; on a derived key we return
`[]` (the source would reject, as derived keys are non-extractable). -/
def exportKey : CryptoKey → Bytes
  | .raw bytes => bytes
  | .derived _ _ _ => []

/-- Embedding of `importKey(keyData)`: rebuilds the key with the given raw material. -/
def importKey (keyData : Bytes) : CryptoKey := .raw keyData

/-! ## `SecureVaultManager` (part_007): session key and auto-lock timer

Mutable singleton state is threaded explicitly; `setTimeout` is modelled by
the absolute instant `lockDeadline` at which the pending timer would fire,
with the current time `now` an explicit argument. -/

/-- Embedding of `VaultKey {masterKey, salt, timestamp}`. -/
structure VaultKey where
  masterKey : CryptoKey
  salt : Bytes
  timestamp : Nat
  deriving DecidableEq

/-- The mutable fields of the manager: `vaultKey` and the pending `lockTimeout`. -/
structure VaultManagerState where
  vaultKey : Option VaultKey
  lockDeadline : Option Nat
  deriving DecidableEq

/-- Embedding of `AUTO_LOCK_TIME = 15 * 60 * 1000` (15 minutes, in ms). -/
def AUTO_LOCK_TIME : Nat := 15 * 60 * 1000

namespace SecureVaultManager

/-- Embedding of `resetLockTimer()`: clears any pending timer and schedules a fresh one
`AUTO_LOCK_TIME` from now. -/
def resetLockTimer (now : Nat) (s : VaultManagerState) : VaultManagerState :=
  { s with lockDeadline := some (now + AUTO_LOCK_TIME) }

/-- Embedding of `unlockVault(masterPassword, salt?)`: derives a key, installs it with
the current timestamp, restarts the timer, returns `true`.  (The `catch`
branch returning `false` is unreachable in the model: derivation is total.) -/
def unlockVault (s : VaultManagerState) (masterPassword : String) (salt : Option Bytes)
    (freshSalt : Bytes) (now : Nat) : VaultManagerState × Bool :=
  let derived := deriveKeyFromPassword masterPassword salt freshSalt
  let s1 : VaultManagerState :=
    { s with vaultKey := some { masterKey := derived.key, salt := derived.salt, timestamp := now } }
  (resetLockTimer now s1, true)

/-- Embedding of `lockVault()`: discards the key and cancels the timer.  Idempotent. -/
def lockVault (_s : VaultManagerState) : VaultManagerState :=
  { vaultKey := none, lockDeadline := none }

/-- Embedding of `isUnlocked()`. -/
def isUnlocked (s : VaultManagerState) : Bool := s.vaultKey.isSome

/-- Embedding of `getVaultKey()`: `null` when locked; otherwise returns the key and
resets the auto-lock timer. -/
def getVaultKey (s : VaultManagerState) (now : Nat) : VaultManagerState × Option VaultKey :=
  match s.vaultKey with
  | none => (s, none)
  | some vk => (resetLockTimer now s, some vk)

end SecureVaultManager

/-! ## `calculatePasswordStrength` (part_007)

The JS regex classes `[a-z]`, `[A-Z]`, `\d`, `[^A-Za-z0-9]` are ASCII
tests, matching the Lean functions `Char.isLower`/`isUpper`/`isDigit`/`isAlphanum`;
`\s` is rendered by `Char.isWhitespace`. -/

/-- Result record of `calculatePasswordStrength`. -/
structure PasswordStrengthResult where
  score : Nat
  strength : String
  feedback : List String
  deriving DecidableEq

/-- Embedding of `calculatePasswordStrength(password)`: length and character-class
scoring with accumulated feedback, exactly in the order of the source. -/
def calculatePasswordStrength (password : String) : PasswordStrengthResult :=
  let len := password.length
  let hasLower := password.data.any (fun c => c.isLower)
  let hasUpper := password.data.any (fun c => c.isUpper)
  let hasDigit := password.data.any (fun c => c.isDigit)
  let hasSpecial := password.data.any (fun c => !c.isAlphanum)
  let hasSpecialNoWs := password.data.any (fun c => !c.isAlphanum && !c.isWhitespace)
  let score :=
    (if 12 ≤ len then 2 else if 8 ≤ len then 1 else 0) +
    (if hasLower then 1 else 0) + (if hasUpper then 1 else 0) +
    (if hasDigit then 1 else 0) + (if hasSpecial then 1 else 0) +
    (if 16 ≤ len then 1 else 0) + (if hasSpecialNoWs then 1 else 0)
  let feedback :=
    (if 8 ≤ len then [] else ["Use at least 8 characters"]) ++
    (if hasLower then [] else ["Include lowercase letters"]) ++
    (if hasUpper then [] else ["Include uppercase letters"]) ++
    (if hasDigit then [] else ["Include numbers"]) ++
    (if hasSpecial then [] else ["Include special characters"])
  let strength :=
    if 7 ≤ score then "Strong"
    else if 5 ≤ score then "Good"
    else if 3 ≤ score then "Fair"
    else if 1 ≤ score then "Weak"
    else "Very Weak"
  { score := score, strength := strength, feedback := feedback }

/-! ## `MasterPasswordService` (src/services/MasterPasswordService.ts)

The mutable fields of the singleton (`currentUser`, `masterPasswordData`, the
shared `SecureVaultManager`) plus the per-account `localStorage` entries it
reads and writes are threaded as one explicit state record. -/

/-- The slice of a Firebase `User` the service reads. -/
structure User where
  uid : String
  email : Option String
  deriving DecidableEq

/-- Embedding of `UserMasterPasswordData`: the persisted immutable binding. -/
structure UserMasterPasswordData where
  userUid : String
  userEmail : String
  saltBase64 : String
  setupTimestamp : Nat
  lastUsedTimestamp : Nat
  isImmutable : Bool
  deriving DecidableEq

/-- Embedding of `MasterPasswordSetupResult {success, error?, requiresSetup?}`. -/
structure MasterPasswordSetupResult where
  success : Bool
  error : Option String
  requiresSetup : Option Bool
  deriving DecidableEq

/-- Service state: current user, loaded binding, shared vault manager, and
the `citadel-master-password-*` entries of `localStorage`. -/
structure MasterPasswordServiceState where
  currentUser : Option User
  masterPasswordData : Option UserMasterPasswordData
  vaultManager : VaultManagerState
  stored : List (String × UserMasterPasswordData)
  deriving DecidableEq

/-- Embedding of `localStorage.setItem`: replace any entry under the key, then add. -/
def lsSet (m : List (String × UserMasterPasswordData)) (k : String)
    (v : UserMasterPasswordData) : List (String × UserMasterPasswordData) :=
  m.filter (fun p => p.1 ≠ k) ++ [(k, v)]

namespace MasterPasswordService

/-- Embedding of `getUserStorageKey(userUid)`. -/
def getUserStorageKey (userUid : String) : String :=
  "citadel-master-password-" ++ userUid

/-- Embedding of `isMasterPasswordSet()`: requires an authenticated user and a loaded
binding. -/
def isMasterPasswordSet (s : MasterPasswordServiceState) : Bool :=
  s.currentUser.isSome && s.masterPasswordData.isSome

/-- Embedding of `setupMasterPassword(password)` (one-time only).  `freshSalt` is the
random 32-byte salt drawn, `now` the clock. -/
def setupMasterPassword (s : MasterPasswordServiceState) (password : String)
    (freshSalt : Bytes) (now : Nat) :
    MasterPasswordServiceState × MasterPasswordSetupResult :=
  match s.currentUser with
  | none =>
    (s, { success := false,
          error := some "User must be authenticated to setup master password",
          requiresSetup := none })
  | some user =>
    match user.email with
    | none =>
      (s, { success := false,
            error := some "User must be authenticated to setup master password",
            requiresSetup := none })
    | some email =>
      if isMasterPasswordSet s then
        (s, { success := false,
              error := some "Master password is already set and cannot be changed",
              requiresSetup := none })
      else
        let strength := calculatePasswordStrength password
        if strength.score < 6 then
          (s, { success := false,
                error := some ("Password is too weak. " ++
                  String.intercalate " " strength.feedback),
                requiresSetup := none })
        else
          let res := SecureVaultManager.unlockVault s.vaultManager password
            (some freshSalt) freshSalt now
          if res.2 then
            let data : UserMasterPasswordData :=
              { userUid := user.uid, userEmail := email,
                saltBase64 := arrayBufferToBase64 freshSalt,
                setupTimestamp := now, lastUsedTimestamp := now,
                isImmutable := true }
            ({ s with
                vaultManager := res.1,
                masterPasswordData := some data,
                stored := lsSet s.stored (getUserStorageKey user.uid) data },
             { success := true, error := none, requiresSetup := none })
          else
            ({ s with vaultManager := res.1 },
             { success := false,
               error := some "Failed to setup master password. Please try again.",
               requiresSetup := none })

/-- Embedding of `unlockVault(password)`: loads the stored salt for the current user and
delegates to `SecureVaultManager.unlockVault`; a `false` from the manager is
reported as `Invalid master password`, and an `atob` throw on a corrupted
stored salt lands in the outer catch. -/
def unlockVault (s : MasterPasswordServiceState) (password : String) (now : Nat) :
    MasterPasswordServiceState × MasterPasswordSetupResult :=
  match s.currentUser with
  | none =>
    (s, { success := false, error := some "User must be authenticated",
          requiresSetup := none })
  | some _user =>
    match s.masterPasswordData with
    | none =>
      (s, { success := false, error := some "Master password must be set up first",
            requiresSetup := some true })
    | some d =>
      match base64ToArrayBuffer d.saltBase64 with
      | none =>
        (s, { success := false,
              error := some "Failed to unlock vault. Please try again.",
              requiresSetup := none })
      | some saltBytes =>
        let res := SecureVaultManager.unlockVault s.vaultManager password
          (some saltBytes) saltBytes now
        if res.2 then
          let d1 := { d with lastUsedTimestamp := now }
          ({ s with
              vaultManager := res.1,
              masterPasswordData := some d1,
              stored := lsSet s.stored (getUserStorageKey d1.userUid) d1 },
           { success := true, error := none, requiresSetup := none })
        else
          ({ s with vaultManager := res.1 },
           { success := false, error := some "Invalid master password",
             requiresSetup := none })

/-- Embedding of `lockVault()`. -/
def lockVault (s : MasterPasswordServiceState) : MasterPasswordServiceState :=
  { s with vaultManager := SecureVaultManager.lockVault s.vaultManager }

/-- Embedding of `isVaultUnlocked()`. -/
def isVaultUnlocked (s : MasterPasswordServiceState) : Bool :=
  SecureVaultManager.isUnlocked s.vaultManager

end MasterPasswordService

/-! ## `SecureStorageService` — typed record layer
(src/services/SecureStorageService.ts)

`EncryptedItem` and the per-record envelope operations.  Record payloads
are carried as their `JSON.stringify` serialization (an opaque string);
`JSON.parse` on the decrypted payload is the identity on that string. -/

/-- The `type` discriminator of an `EncryptedItem`. -/
inductive ItemType
  | password
  | apiKey
  | googleCode
  | note
  deriving DecidableEq

/-- The literal string of an `ItemType`. -/
def ItemType.str : ItemType → String
  | .password => "password"
  | .apiKey => "apiKey"
  | .googleCode => "googleCode"
  | .note => "note"

/-- Embedding of `EncryptedItem {id, encryptedData, encryptedKey, lastModified, type}`. -/
structure EncryptedItem where
  id : String
  encryptedData : EncryptedData
  encryptedKey : EncryptedData
  lastModified : Nat
  type : ItemType
  deriving DecidableEq

/-- Embedding of `decryptItem(encryptedItem)`: unwraps the item key under the vault key
(base64-decoding its raw bytes), then decrypts the payload.  Takes the
result of `getVaultKey()`; a throw at any step becomes the `Except` error
that the try/catch of the caller sees. -/
def decryptItem (vaultKey : Option VaultKey) (encryptedItem : EncryptedItem) :
    Except String String :=
  match vaultKey with
  | none => .error "Vault is locked"
  | some vk => do
    let encryptedKeyData ← decryptData encryptedItem.encryptedKey vk.masterKey
    match base64ToArrayBuffer encryptedKeyData with
    | none => .error "InvalidCharacterError: atob failed"
    | some keyBytes =>
      let itemKey := importKey keyBytes
      decryptData encryptedItem.encryptedData itemKey

/-- Embedding of `getItemsByType(type)`: filter the items of the container by type, decrypt
each, and skip (not abort on) any item whose decryption throws.  The
corrupted items are only logged via `console.error`; the caller receives
the list of decrypted payloads and nothing else. -/
def getItemsByType (vaultKey : Option VaultKey) (items : List EncryptedItem)
    (type : ItemType) : List String :=
  (items.filter (fun item => item.type == type)).filterMap
    (fun item => (decryptItem vaultKey item).toOption)

/-- Embedding of `encryptItem(item, type)`: requires the vault to be unlocked (throwing
`Vault is locked` otherwise), generates a fresh item key, encrypts the
payload under it, and wraps the exported key bytes (base64) under the vault
key.  `itemKeyBytes`, `ivData`, `ivKey` are the randomness drawn. -/
def encryptItem (vm : VaultManagerState) (itemJson : String) (id : String)
    (type : ItemType) (itemKeyBytes : Bytes) (ivData ivKey : Bytes) (now : Nat) :
    VaultManagerState × Except String EncryptedItem :=
  let res := SecureVaultManager.getVaultKey vm now
  match res.2 with
  | none => (res.1, .error "Vault is locked")
  | some vaultKey =>
    let itemKey := generateItemKey itemKeyBytes
    let encryptedData := encryptData itemJson itemKey ivData
    let exportedItemKey := exportKey itemKey
    let encryptedKey :=
      encryptData (arrayBufferToBase64 exportedItemKey) vaultKey.masterKey ivKey
    (res.1,
     .ok { id := id, encryptedData := encryptedData, encryptedKey := encryptedKey,
           lastModified := now, type := type })

/-! ## `SecureStorageService` — persistence layer (JSON level)

`loadVaultData`, `getVaultStats`, `isValidVaultData` and `importVault`
operate on the raw result of `JSON.parse`, which the source casts without
validation; they are embedded over a JSON value type.  The persisted blob
under `citadel-secure-vault` is either absent, an unparseable string, or a
parsed JSON value. -/

/-- Untyped JSON values (the result of `JSON.parse`). -/
inductive JsonValue
  | null
  | bool (b : Bool)
  | num (n : Int)
  | str (s : String)
  | arr (elems : List JsonValue)
  | obj (fields : List (String × JsonValue))

/-- JavaScript `typeof` (note that `typeof null` and `typeof` of an array
both give the answer object). -/
def jsTypeof : JsonValue → String
  | .null => "object"
  | .bool _ => "boolean"
  | .num _ => "number"
  | .str _ => "string"
  | .arr _ => "object"
  | .obj _ => "object"

/-- Property read `j[name]`: `none` is JavaScript `undefined`. -/
def getField : JsonValue → String → Option JsonValue
  | .obj fields, name => fields.lookup name
  | _, _ => none

/-- Embedding of `typeof j[name]` (`"undefined"` when the property is absent or the
value is not an object). -/
def jsTypeofField (j : JsonValue) (name : String) : String :=
  match getField j name with
  | some v => jsTypeof v
  | none => "undefined"

/-- The known `type` enum values of `isValidVaultData`. -/
def knownItemTypes : List String := ["password", "apiKey", "googleCode", "note"]

/-- Per-item check of `isValidVaultData`: the four `typeof` field checks
plus membership of `type` in the enum. -/
def isValidItem (item : JsonValue) : Bool :=
  jsTypeofField item "id" == "string" &&
  jsTypeofField item "encryptedData" == "object" &&
  jsTypeofField item "encryptedKey" == "object" &&
  jsTypeofField item "lastModified" == "number" &&
  (match getField item "type" with
   | some (.str t) => knownItemTypes.contains t
   | _ => false)

/-- Embedding of `isValidVaultData(data)`.  (On `data === null` the source would throw
reading `data.version`; the catch in `importVault` maps that throw to the same
rejection as a `false`, so the model folds it into `false`.) -/
def isValidVaultData (data : JsonValue) : Bool :=
  jsTypeof data == "object" &&
  jsTypeofField data "version" == "string" &&
  (match getField data "items" with
   | some (.arr items) => items.all isValidItem
   | _ => false)

/-- The persisted vault blob: what `localStorage.getItem` + `JSON.parse`
yields.  `unparseable` is a stored string on which `JSON.parse` throws. -/
inductive StoredBlob
  | parsed (data : JsonValue)
  | unparseable

/-- The fresh empty container: version 1.0.0 with an empty items list. -/
def emptyVaultJson : JsonValue :=
  .obj [("version", .str "1.0.0"), ("items", .arr [])]

/-- Embedding of `loadVaultData()`: absent or unparseable storage yields a fresh empty
container; otherwise the parsed JSON is returned unvalidated. -/
def loadVaultData : Option StoredBlob → JsonValue
  | none => emptyVaultJson
  | some .unparseable => emptyVaultJson
  | some (.parsed data) => data

/-- Statistics record returned by `getVaultStats`. -/
structure VaultStats where
  passwords : Nat
  apiKeys : Nat
  googleCodes : Nat
  totalItems : Nat
  lastModified : Option Int
  deriving DecidableEq

/-- Strict equality `i.type === t` of the `type` property of an item with a
string literal. -/
def typeIs (i : JsonValue) (t : String) : Bool :=
  match getField i "type" with
  | some (.str s) => s == t
  | _ => false

/-- Numeric value of a JSON field (`0` stands for the `NaN` JavaScript
would produce from a non-number; no claim exercises that corner). -/
def jsNumOrZero : Option JsonValue → Int
  | some (.num n) => n
  | _ => 0

/-- Embedding of `Math.max(...)` over a non-empty list. -/
def maxList : List Int → Int
  | [] => 0
  | x :: xs => xs.foldl max x

/-- Embedding of `getVaultStats()`: per-type counts for `password`, `apiKey` and
`googleCode`, the total item count, and the latest `lastModified`.  On a
stored container whose `items` is not an array the source throws
(`TypeError`), modelled as the error result. -/
def getVaultStats (store : Option StoredBlob) : Except String VaultStats :=
  let vaultData := loadVaultData store
  match getField vaultData "items" with
  | some (.arr items) =>
    .ok { passwords := (items.filter (fun i => typeIs i "password")).length,
          apiKeys := (items.filter (fun i => typeIs i "apiKey")).length,
          googleCodes := (items.filter (fun i => typeIs i "googleCode")).length,
          totalItems := items.length,
          lastModified :=
            if 0 < items.length then
              some (maxList (items.map (fun i => jsNumOrZero (getField i "lastModified"))))
            else none }
  | _ => .error "TypeError: vaultData.items is not an array"

/-- Template-literal stringification used by the merge keys
(`${i.id}-${i.type}`).  Array rendering is elided (validated containers
only interpolate strings here). -/
def jsTemplateStr : Option JsonValue → String
  | some (.str s) => s
  | some .null => "null"
  | some (.bool b) => if b then "true" else "false"
  | some (.num n) => toString n
  | some (.arr _) => ""
  | some (.obj _) => "[object Object]"
  | none => "undefined"

/-- The merge key `${i.id}-${i.type}` of an item. -/
def itemMergeKey (i : JsonValue) : String :=
  jsTemplateStr (getField i "id") ++ "-" ++ jsTemplateStr (getField i "type")

/-- In-place update of one property of a JSON object (models mutating
`vaultData.items`). -/
def setField : JsonValue → String → JsonValue → JsonValue
  | .obj fields, name, v => .obj (fields.map (fun p => if p.1 = name then (p.1, v) else p))
  | j, _, _ => j

/-- Embedding of `importVault(backupData, mergeWithExisting)`: parse, validate, then
either merge (existing `(id,type)` keys win, the rest of the incoming items
are appended) or replace the whole container.  Every failure path leaves
the store untouched; a parse error, a validation failure, or a throw while
merging over a junk stored container all land in the one catch. -/
def importVault (backupData : Option JsonValue) (store : Option StoredBlob)
    (mergeWithExisting : Bool) : Option StoredBlob × Except String Unit :=
  match backupData with
  | none => (store, .error "Failed to import vault data: Unexpected token in JSON")
  | some importedData =>
    if !isValidVaultData importedData then
      (store, .error "Failed to import vault data: Invalid vault data format")
    else if mergeWithExisting then
      let vaultData := loadVaultData store
      match getField vaultData "items", getField importedData "items" with
      | some (.arr existingItems), some (.arr importedItems) =>
        let existingIds := existingItems.map itemMergeKey
        let newItems := importedItems.filter
          (fun i => !existingIds.contains (itemMergeKey i))
        (some (.parsed (setField vaultData "items" (.arr (existingItems ++ newItems)))),
         .ok ())
      | _, _ => (store, .error "Failed to import vault data: TypeError")
    else
      (some (.parsed importedData), .ok ())

/-! ## Claim theorems -/

/-- C3: For every plaintext string and every AES-GCM key — in
particular every key `deriveKeyFromPassword` derives from a passphrase and
salt — `decryptData (encryptData plaintext key) key` returns exactly the
original plaintext. -/
theorem c3_decrypt_encrypt_roundtrip (plaintext : String) (key : CryptoKey)
    (iv : Bytes) (passphrase : String) (salt freshSalt iv2 : Bytes) :
    decryptData (encryptData plaintext key iv) key = .ok plaintext ∧
    decryptData
        (encryptData plaintext
          (deriveKeyFromPassword passphrase (some salt) freshSalt).key iv2)
        (deriveKeyFromPassword passphrase (some salt) freshSalt).key =
      .ok plaintext := by
  constructor <;> simp [decryptData, encryptData]

/-- Whether a blob is a genuine encryption under `key` with its stored IV
intact (the condition under which the GCM tag verifies). -/
def encryptedUnder (blob : EncryptedData) (key : CryptoKey) : Bool :=
  match blob.data with
  | .enc k iv _ => k == key && iv == blob.iv
  | .junk _ => false

/-- C4: Decryption of any blob that is not a genuine encryption under
the supplied key — a wrong key (in particular one derived from a different
passphrase with the same salt), or a tampered/corrupted blob — fails with
the decryption error and never returns plaintext. -/
theorem c4_decrypt_wrong_key_fails (blob : EncryptedData) (key : CryptoKey)
    (plaintext passphrase wrongPassphrase : String) (salt freshSalt iv : Bytes)
    (iterations : Nat)
    (hblob : encryptedUnder blob key = false)
    (hne : passphrase ≠ wrongPassphrase) :
    decryptData blob key = .error "Decryption failed - invalid key or corrupted data" ∧
    decryptData
        (encryptData plaintext
          (deriveKeyFromPassword passphrase (some salt) freshSalt iterations).key iv)
        (deriveKeyFromPassword wrongPassphrase (some salt) freshSalt iterations).key =
      .error "Decryption failed - invalid key or corrupted data" := by
  constructor
  · rcases blob with ⟨data, biv, bsalt⟩
    cases data with
    | enc k civ pt =>
      simp only [encryptedUnder, Bool.and_eq_false_iff, beq_eq_false_iff_ne, ne_eq] at hblob
      simp only [decryptData]
      rw [if_neg]
      rintro ⟨rfl, rfl⟩
      rcases hblob with h | h <;> exact h rfl
    | junk bs => simp [decryptData]
  · simp only [decryptData, encryptData, deriveKeyFromPassword, Option.getD_some]
    rw [if_neg]
    rintro ⟨hk, -⟩
    injection hk with h1 h2 h3
    exact hne h1

/-- C4 witness: A junk blob and a derived-key pair at concrete inputs. -/
theorem c4_witness :
    encryptedUnder { data := .junk [9], iv := [1] } (.raw [2]) = false ∧
    "pw-a" ≠ "pw-b" ∧
    decryptData { data := .junk [9], iv := [1] } (.raw [2]) =
      .error "Decryption failed - invalid key or corrupted data" ∧
    decryptData
        (encryptData "s3cret"
          (deriveKeyFromPassword "pw-a" (some [0]) [] 100000).key [7])
        (deriveKeyFromPassword "pw-b" (some [0]) [] 100000).key =
      .error "Decryption failed - invalid key or corrupted data" := by
  refine ⟨by decide, by decide, ?_⟩
  have h := c4_decrypt_wrong_key_fails { data := .junk [9], iv := [1] } (.raw [2])
    "s3cret" "pw-a" "pw-b" [0] [] [7] 100000 (by decide) (by decide)
  exact h

/-- C2: Once a binding exists for the authenticated account, any second
`setupMasterPassword` call returns the already-set failure — whatever the
strength of the new password — and leaves the whole service state (binding
included) unchanged. -/
theorem c2_second_setup_already_set (s : MasterPasswordServiceState)
    (user : User) (email : String) (d : UserMasterPasswordData)
    (password : String) (freshSalt : Bytes) (now : Nat)
    (hu : s.currentUser = some user) (he : user.email = some email)
    (hd : s.masterPasswordData = some d) :
    MasterPasswordService.setupMasterPassword s password freshSalt now =
      (s, { success := false,
            error := some "Master password is already set and cannot be changed",
            requiresSetup := none }) := by
  simp [MasterPasswordService.setupMasterPassword,
    MasterPasswordService.isMasterPasswordSet, hu, he, hd]

/-- C2 witness: Concrete second setup on an account with a binding. -/
theorem c2_witness :
    MasterPasswordService.setupMasterPassword
        { currentUser := some { uid := "u1", email := some "u1@example.com" },
          masterPasswordData := some
            { userUid := "u1", userEmail := "u1@example.com",
              saltBase64 := "AA==", setupTimestamp := 0, lastUsedTimestamp := 0,
              isImmutable := true },
          vaultManager := { vaultKey := none, lockDeadline := none },
          stored := [] }
        "An0ther!Str0ngPassw0rd" [1, 2] 99 =
      ({ currentUser := some { uid := "u1", email := some "u1@example.com" },
         masterPasswordData := some
           { userUid := "u1", userEmail := "u1@example.com",
             saltBase64 := "AA==", setupTimestamp := 0, lastUsedTimestamp := 0,
             isImmutable := true },
         vaultManager := { vaultKey := none, lockDeadline := none },
         stored := [] },
       { success := false,
         error := some "Master password is already set and cannot be changed",
         requiresSetup := none }) :=
  c2_second_setup_already_set _ _ "u1@example.com" _ _ _ _ rfl rfl rfl

/-- C7: While the session is locked, `getVaultKey` yields no key and a
record operation (`encryptItem`) fails with the vault-locked error — the
`null` is never treated as success; while unlocked, `getVaultKey` returns
the session key and each access slides the auto-lock deadline to
`now + AUTO_LOCK_TIME`. -/
theorem c7_session_key_access (vm : VaultManagerState) (now : Nat)
    (itemJson id : String) (type : ItemType) (itemKeyBytes ivData ivKey : Bytes) :
    (vm.vaultKey = none →
      SecureVaultManager.getVaultKey vm now = (vm, none) ∧
      (encryptItem vm itemJson id type itemKeyBytes ivData ivKey now).2 =
        .error "Vault is locked") ∧
    (∀ vk, vm.vaultKey = some vk →
      SecureVaultManager.getVaultKey vm now =
        ({ vm with lockDeadline := some (now + AUTO_LOCK_TIME) }, some vk)) := by
  constructor
  · intro h
    constructor
    · simp [SecureVaultManager.getVaultKey, h]
    · simp [encryptItem, SecureVaultManager.getVaultKey, h]
  · intro vk h
    simp [SecureVaultManager.getVaultKey, h, SecureVaultManager.resetLockTimer]

/-- C7 witness: A locked and an unlocked state at concrete inputs. -/
theorem c7_witness :
    (SecureVaultManager.getVaultKey { vaultKey := none, lockDeadline := none } 5 =
        ({ vaultKey := none, lockDeadline := none }, none) ∧
      (encryptItem { vaultKey := none, lockDeadline := none } "pl" "p1" .password
          [7] [1] [2] 5).2 = .error "Vault is locked") ∧
    SecureVaultManager.getVaultKey
        { vaultKey := some { masterKey := .raw [3], salt := [0], timestamp := 0 },
          lockDeadline := some 1 } 5 =
      ({ vaultKey := some { masterKey := .raw [3], salt := [0], timestamp := 0 },
          lockDeadline := some (5 + AUTO_LOCK_TIME) },
        some { masterKey := .raw [3], salt := [0], timestamp := 0 }) :=
  ⟨(c7_session_key_access { vaultKey := none, lockDeadline := none } 5 "pl" "p1"
      .password [7] [1] [2]).1 rfl,
   (c7_session_key_access
      { vaultKey := some { masterKey := .raw [3], salt := [0], timestamp := 0 },
        lockDeadline := some 1 } 5 "pl" "p1" .password [7] [1] [2]).2
      { masterKey := .raw [3], salt := [0], timestamp := 0 } rfl⟩

/-- C9: An absent or unparseable persisted blob loads as the fresh
empty container (`version "1.0.0"`, zero records), and statistics and bulk
reads proceed on it without error. -/
theorem c9_absent_or_unparseable_loads_empty (key : Option VaultKey) (t : ItemType) :
    loadVaultData none = emptyVaultJson ∧
    loadVaultData (some .unparseable) = emptyVaultJson ∧
    getField emptyVaultJson "version" = some (.str "1.0.0") ∧
    getField emptyVaultJson "items" = some (.arr []) ∧
    getVaultStats none =
      .ok { passwords := 0, apiKeys := 0, googleCodes := 0, totalItems := 0,
            lastModified := none } ∧
    getVaultStats (some .unparseable) =
      .ok { passwords := 0, apiKeys := 0, googleCodes := 0, totalItems := 0,
            lastModified := none } ∧
    getItemsByType key [] t = [] :=
  ⟨rfl, rfl, rfl, rfl, rfl, rfl, rfl⟩

/-- The `type` of an item cannot strict-equal two different string literals. -/
theorem typeIs_unique {i : JsonValue} {a b : String} (ha : typeIs i a = true)
    (hab : a ≠ b) : typeIs i b = false := by
  unfold typeIs at ha ⊢
  cases hg : getField i "type" with
  | none => simp [hg] at ha
  | some v =>
    simp only [hg] at ha ⊢
    cases v <;> simp_all

/-- Items whose `type` is one of the four accepted values partition the
container: the four per-type filters cover each item exactly once. -/
theorem c10_count_partition :
    ∀ items : List JsonValue,
      (∀ i ∈ items, (typeIs i "password" || typeIs i "apiKey" ||
        typeIs i "googleCode" || typeIs i "note") = true) →
      (items.filter (fun i => typeIs i "password")).length +
        (items.filter (fun i => typeIs i "apiKey")).length +
        (items.filter (fun i => typeIs i "googleCode")).length +
        (items.filter (fun i => typeIs i "note")).length = items.length := by
  intro items
  induction items with
  | nil => intro _; simp
  | cons i t ih =>
    intro h
    have hi := h i (List.mem_cons_self i t)
    have ht := ih (fun x hx => h x (List.mem_cons_of_mem i hx))
    simp only [Bool.or_eq_true] at hi
    rcases hi with ((hp | ha) | hg) | hn
    · have h1 := typeIs_unique hp (show "password" ≠ "apiKey" by decide)
      have h2 := typeIs_unique hp (show "password" ≠ "googleCode" by decide)
      have h3 := typeIs_unique hp (show "password" ≠ "note" by decide)
      simp only [List.filter_cons, hp, h1, h2, h3, if_true, if_false,
        List.length_cons, Bool.false_eq_true, ite_false, ite_true]
      omega
    · have h1 := typeIs_unique ha (show "apiKey" ≠ "password" by decide)
      have h2 := typeIs_unique ha (show "apiKey" ≠ "googleCode" by decide)
      have h3 := typeIs_unique ha (show "apiKey" ≠ "note" by decide)
      simp only [List.filter_cons, ha, h1, h2, h3, if_true, if_false,
        List.length_cons, Bool.false_eq_true, ite_false, ite_true]
      omega
    · have h1 := typeIs_unique hg (show "googleCode" ≠ "password" by decide)
      have h2 := typeIs_unique hg (show "googleCode" ≠ "apiKey" by decide)
      have h3 := typeIs_unique hg (show "googleCode" ≠ "note" by decide)
      simp only [List.filter_cons, hg, h1, h2, h3, if_true, if_false,
        List.length_cons, Bool.false_eq_true, ite_false, ite_true]
      omega
    · have h1 := typeIs_unique hn (show "note" ≠ "password" by decide)
      have h2 := typeIs_unique hn (show "note" ≠ "apiKey" by decide)
      have h3 := typeIs_unique hn (show "note" ≠ "googleCode" by decide)
      simp only [List.filter_cons, hn, h1, h2, h3, if_true, if_false,
        List.length_cons, Bool.false_eq_true, ite_false, ite_true]
      omega

/-- C10: `getVaultStats` counts every item of the container in
`totalItems`, but the per-type counts cover only `password`, `apiKey` and
`googleCode`; items of type `note` are counted in `totalItems` and in no
per-type count, so the three per-type counts plus the note count — not the
three alone — sum to `totalItems`. -/
theorem c10_stats_totals (j : JsonValue) (items : List JsonValue)
    (hitems : getField j "items" = some (.arr items))
    (htypes : ∀ i ∈ items, (typeIs i "password" || typeIs i "apiKey" ||
      typeIs i "googleCode" || typeIs i "note") = true) :
    ∃ st : VaultStats, getVaultStats (some (.parsed j)) = .ok st ∧
      st.totalItems = items.length ∧
      st.passwords = (items.filter (fun i => typeIs i "password")).length ∧
      st.apiKeys = (items.filter (fun i => typeIs i "apiKey")).length ∧
      st.googleCodes = (items.filter (fun i => typeIs i "googleCode")).length ∧
      st.passwords + st.apiKeys + st.googleCodes +
        (items.filter (fun i => typeIs i "note")).length = st.totalItems := by
  have hstats : getVaultStats (some (.parsed j)) = .ok
      { passwords := (items.filter (fun i => typeIs i "password")).length,
        apiKeys := (items.filter (fun i => typeIs i "apiKey")).length,
        googleCodes := (items.filter (fun i => typeIs i "googleCode")).length,
        totalItems := items.length,
        lastModified :=
          if 0 < items.length then
            some (maxList (items.map (fun i => jsNumOrZero (getField i "lastModified"))))
          else none } := by
    simp only [getVaultStats, loadVaultData, hitems]
  exact ⟨_, hstats, rfl, rfl, rfl, rfl, c10_count_partition items htypes⟩

/-- C10 witness: A container holding one `note` and one `password`
item: `totalItems` is 2, the per-type counts sum to 1. -/
theorem c10_witness :
    ∃ st : VaultStats,
      getVaultStats (some (.parsed (.obj [("version", .str "1.0.0"),
        ("items", .arr [.obj [("type", .str "note")],
                        .obj [("type", .str "password")]])]))) = .ok st ∧
      st.totalItems = [JsonValue.obj [("type", .str "note")],
        .obj [("type", .str "password")]].length ∧
      st.passwords = ([JsonValue.obj [("type", .str "note")],
        .obj [("type", .str "password")]].filter (fun i => typeIs i "password")).length ∧
      st.apiKeys = ([JsonValue.obj [("type", .str "note")],
        .obj [("type", .str "password")]].filter (fun i => typeIs i "apiKey")).length ∧
      st.googleCodes = ([JsonValue.obj [("type", .str "note")],
        .obj [("type", .str "password")]].filter (fun i => typeIs i "googleCode")).length ∧
      st.passwords + st.apiKeys + st.googleCodes +
        ([JsonValue.obj [("type", .str "note")],
          .obj [("type", .str "password")]].filter (fun i => typeIs i "note")).length =
        st.totalItems :=
  c10_stats_totals _ _ rfl (by decide)

/-- One record malformed in one of the ways the claim lists: a missing
required field, or a `type` outside the known enum values. -/
def c5BadItem (i : JsonValue) : Prop :=
  getField i "id" = none ∨ getField i "encryptedData" = none ∨
  getField i "encryptedKey" = none ∨ getField i "lastModified" = none ∨
  (∀ t : String, getField i "type" = some (.str t) → t ∉ knownItemTypes)

/-- C5: Every malformed import input the claim lists — `version`
missing or not a string, `items` missing or not an array, a record missing
a required field or typed outside the enum — is rejected with the
invalid-container error and leaves the persisted container exactly as it
was, merge or not. -/
theorem c5_malformed_import_rejected (j : JsonValue) (store : Option StoredBlob)
    (merge : Bool)
    (h : jsTypeofField j "version" ≠ "string" ∨
      (∀ l, getField j "items" ≠ some (.arr l)) ∨
      (∃ items, getField j "items" = some (.arr items) ∧ ∃ i ∈ items, c5BadItem i)) :
    importVault (some j) store merge =
      (store, .error "Failed to import vault data: Invalid vault data format") := by
  have hvalid : isValidVaultData j = false := by
    rcases h with h | h | ⟨items, hitems, i, hi, hbad⟩
    · simp [isValidVaultData, h]
    · cases hg : getField j "items" with
      | none => simp [isValidVaultData, hg]
      | some v =>
        cases v with
        | arr l => exact absurd hg (h l)
        | null => simp [isValidVaultData, hg]
        | bool b => simp [isValidVaultData, hg]
        | num n => simp [isValidVaultData, hg]
        | str s => simp [isValidVaultData, hg]
        | obj f => simp [isValidVaultData, hg]
    · have hbadI : isValidItem i = false := by
        rcases hbad with h1 | h1 | h1 | h1 | h1
        · simp [isValidItem, jsTypeofField, h1]
        · simp [isValidItem, jsTypeofField, h1]
        · simp [isValidItem, jsTypeofField, h1]
        · simp [isValidItem, jsTypeofField, h1]
        · cases hg : getField i "type" with
          | none => simp [isValidItem, hg]
          | some v =>
            cases v with
            | str t =>
              have hc : knownItemTypes.contains t = false := by
                simpa using h1 t hg
              simp [isValidItem, hg, hc]
              exact fun _ _ _ _ => h1 t hg
            | null => simp [isValidItem, hg]
            | bool b => simp [isValidItem, hg]
            | num n => simp [isValidItem, hg]
            | arr l => simp [isValidItem, hg]
            | obj f => simp [isValidItem, hg]
      simp only [isValidVaultData, hitems]
      have : items.all isValidItem = false := by
        rw [List.all_eq_false]
        exact ⟨i, hi, by simp [hbadI]⟩
      simp [this]
  simp [importVault, hvalid]

/-- C5 witness: Importing a container missing the `items` field (the
field the spec calls records) is rejected and the store (here: empty) is
untouched. -/
theorem c5_witness :
    importVault (some (.obj [("version", .str "1.0.0")])) none false =
      (none, .error "Failed to import vault data: Invalid vault data format") :=
  c5_malformed_import_rejected _ none false
    (Or.inr (Or.inl (fun l hl => by simp [getField, List.lookup] at hl)))

/-- A session key for the C6 scenario. -/
def c6Key : VaultKey :=
  { masterKey := .derived "Tr0ub4dor&3xyz" [0] 100000, salt := [0], timestamp := 0 }

/-- A record that decrypts under `c6Key`: its item key `[7]` is wrapped
(base64-encoded, then encrypted) under the session key, and its payload is
encrypted under the item key. -/
def c6Good : EncryptedItem :=
  { id := "good", type := .password, lastModified := 0,
    encryptedKey := encryptData (arrayBufferToBase64 [7]) c6Key.masterKey [1],
    encryptedData := encryptData "payload-good" (.raw [7]) [2] }

/-- A corrupted record of the same type: both blobs are junk bytes. -/
def c6Bad : EncryptedItem :=
  { id := "bad", type := .password, lastModified := 0,
    encryptedKey := { data := .junk [9], iv := [3] },
    encryptedData := { data := .junk [9], iv := [4] } }

/-- C6 counterexample: The bulk read returns the same value whether the
container holds zero or one corrupted record of the requested type (the
result is just the list of decrypted payloads), so the number of corrupted
(skipped) items is *not* surfaced to the caller — it is only logged to the
developer console. -/
theorem c6_counterexample :
    getItemsByType (some c6Key) [c6Good] .password =
        getItemsByType (some c6Key) [c6Good, c6Bad] .password ∧
    getItemsByType (some c6Key) [c6Good, c6Bad] .password = ["payload-good"] ∧
    c6Bad.type = .password ∧
    decryptItem (some c6Key) c6Bad =
      .error "Decryption failed - invalid key or corrupted data" :=
  ⟨rfl, rfl, rfl, rfl⟩

/-- C6 amended: A record that fails to decrypt is skipped without
aborting the bulk read: removing it leaves the result unchanged, and every
record of the requested type that does decrypt contributes its payload to
the result.  (The corrupted count is only written to the console, not
returned.) -/
theorem c6_amended_skip_and_complete (vaultKey : Option VaultKey)
    (pre post : List EncryptedItem) (bad : EncryptedItem) (t : ItemType)
    (msg : String)
    (hbad : decryptItem vaultKey bad = .error msg) :
    getItemsByType vaultKey (pre ++ bad :: post) t =
      getItemsByType vaultKey (pre ++ post) t ∧
    ∀ item ∈ pre ++ post, item.type = t → ∀ pt,
      decryptItem vaultKey item = .ok pt →
      pt ∈ getItemsByType vaultKey (pre ++ post) t := by
  constructor
  · unfold getItemsByType
    rw [List.filter_append, List.filter_append, List.filter_cons]
    by_cases hb : (bad.type == t) = true
    · simp [hb, List.filterMap_append, hbad, Except.toOption]
    · simp [hb]
  · intro item hmem htype pt hpt
    unfold getItemsByType
    refine List.mem_filterMap.mpr ⟨item, List.mem_filter.mpr ⟨hmem, by simp [htype]⟩, ?_⟩
    simp [hpt, Except.toOption]

/-- C6 witness: The amended theorem at the concrete corrupted record. -/
theorem c6_witness :
    decryptItem (some c6Key) c6Bad =
        .error "Decryption failed - invalid key or corrupted data" ∧
    (getItemsByType (some c6Key) ([c6Good] ++ c6Bad :: []) .password =
        getItemsByType (some c6Key) ([c6Good] ++ []) .password ∧
      ∀ item ∈ [c6Good] ++ ([] : List EncryptedItem), item.type = .password →
        ∀ pt, decryptItem (some c6Key) item = .ok pt →
          pt ∈ getItemsByType (some c6Key) ([c6Good] ++ []) .password) :=
  ⟨rfl, c6_amended_skip_and_complete (some c6Key) [c6Good] [] c6Bad .password
    "Decryption failed - invalid key or corrupted data" rfl⟩

/-- Service state for the C1 scenario: account `u1` with a binding already
set up (salt `[0]`), vault locked. -/
def c1State : MasterPasswordServiceState :=
  { currentUser := some { uid := "u1", email := some "u1@example.com" },
    masterPasswordData := some
      { userUid := "u1", userEmail := "u1@example.com",
        saltBase64 := arrayBufferToBase64 [0], setupTimestamp := 0,
        lastUsedTimestamp := 0, isImmutable := true },
    vaultManager := { vaultKey := none, lockDeadline := none },
    stored := [] }

/-- A record in the vault of `u1`, enveloped under the session key derived
from the correct passphrase `Tr0ub4dor&3xyz` and the stored salt `[0]`. -/
def c1Item : EncryptedItem :=
  { id := "p1", type := .password, lastModified := 0,
    encryptedKey := encryptData (arrayBufferToBase64 [7])
      (.derived "Tr0ub4dor&3xyz" [0] 100000) [1],
    encryptedData := encryptData "payload-p1" (.raw [7]) [2] }

/-- C1 counterexample: With a binding set up and a record belonging to
the correct passphrase, `unlockVault` with an *incorrect* passphrase
reports `success = true` and no error — it does not return the
invalid-password failure the claim requires.  (Key derivation succeeds for
any password; nothing attempts a decryption at unlock time.) -/
theorem c1_counterexample :
    "wrong-password" ≠ "Tr0ub4dor&3xyz" ∧
    decryptItem
        (some { masterKey := .derived "Tr0ub4dor&3xyz" [0] 100000,
                salt := [0], timestamp := 1000 }) c1Item = .ok "payload-p1" ∧
    (MasterPasswordService.unlockVault c1State "wrong-password" 1000).2 =
      { success := true, error := none, requiresSetup := none } :=
  ⟨by decide, rfl, rfl⟩

/-- A stored record properly enveloped under session key `k`: its item-key
bytes are wrapped (base64, then encrypted) under `k`, and its payload is
encrypted under that item key. -/
def wrappedUnder (k : CryptoKey) (payload : String) (item : EncryptedItem) : Prop :=
  ∃ keyBytes iv1 iv2, (∀ x ∈ keyBytes, x < 256) ∧
    item.encryptedKey = encryptData (arrayBufferToBase64 keyBytes) k iv1 ∧
    item.encryptedData = encryptData payload (.raw keyBytes) iv2

/-- C1 amended: Unlocking with an incorrect passphrase *succeeds* at
the session level (no `InvalidPasswordError` is reported); the wrong key
shows up only downstream, where every properly enveloped record fails to
decrypt and bulk reads skip them all — leaving the stored records intact —
and a subsequent unlock with the correct passphrase succeeds and decrypts
every record to its original plaintext. -/
theorem c1_amended_wrong_password (s : MasterPasswordServiceState) (user : User)
    (d : UserMasterPasswordData) (salt : Bytes) (correct wrong : String)
    (now now2 : Nat)
    (hu : s.currentUser = some user)
    (hd : s.masterPasswordData = some d)
    (hsalt : d.saltBase64 = arrayBufferToBase64 salt)
    (hbytes : ∀ x ∈ salt, x < 256)
    (hne : wrong ≠ correct) :
    (MasterPasswordService.unlockVault s wrong now).2 =
      { success := true, error := none, requiresSetup := none } ∧
    (∀ item payload, wrappedUnder (.derived correct salt 100000) payload item →
      decryptItem
          (MasterPasswordService.unlockVault s wrong now).1.vaultManager.vaultKey
          item =
        .error "Decryption failed - invalid key or corrupted data") ∧
    (∀ t items,
      (∀ i ∈ items, ∃ p, wrappedUnder (.derived correct salt 100000) p i) →
      getItemsByType
        (MasterPasswordService.unlockVault s wrong now).1.vaultManager.vaultKey
        items t = []) ∧
    (MasterPasswordService.unlockVault
        (MasterPasswordService.unlockVault s wrong now).1 correct now2).2 =
      { success := true, error := none, requiresSetup := none } ∧
    (∀ item payload, wrappedUnder (.derived correct salt 100000) payload item →
      decryptItem
          (MasterPasswordService.unlockVault
            (MasterPasswordService.unlockVault s wrong now).1
            correct now2).1.vaultManager.vaultKey item =
        .ok payload) := by
  have hdecode : base64ToArrayBuffer d.saltBase64 = some salt := by
    rw [hsalt]
    exact b64DecodeChars_b64EncodeBytes salt hbytes
  have heq : MasterPasswordService.unlockVault s wrong now =
      ({ s with
          vaultManager :=
            { vaultKey := some
                { masterKey := .derived wrong salt 100000,
                  salt := salt, timestamp := now },
              lockDeadline := some (now + AUTO_LOCK_TIME) },
          masterPasswordData := some { d with lastUsedTimestamp := now },
          stored := lsSet s.stored
            (MasterPasswordService.getUserStorageKey d.userUid)
            { d with lastUsedTimestamp := now } },
        { success := true, error := none, requiresSetup := none }) := by
    simp [MasterPasswordService.unlockVault, hu, hd, hdecode,
      SecureVaultManager.unlockVault, SecureVaultManager.resetLockTimer,
      deriveKeyFromPassword]
  have hwrongkey : ∀ item payload,
      wrappedUnder (.derived correct salt 100000) payload item →
      decryptItem
          (some
            { masterKey := .derived wrong salt 100000, salt := salt,
              timestamp := now }) item =
        .error "Decryption failed - invalid key or corrupted data" := by
    rintro item payload ⟨keyBytes, iv1, iv2, hkb, hkey, hdata⟩
    have : decryptData item.encryptedKey (.derived wrong salt 100000) =
        .error "Decryption failed - invalid key or corrupted data" := by
      rw [hkey]
      simp only [decryptData, encryptData]
      rw [if_neg]
      rintro ⟨hk, -⟩
      injection hk with h1 h2 h3
      exact hne h1.symm
    simp only [decryptItem, this]
    rfl
  refine ⟨by rw [heq], ?_, ?_, ?_, ?_⟩
  · intro item payload hw
    rw [heq]
    exact hwrongkey item payload hw
  · intro t items hws
    rw [heq]
    unfold getItemsByType
    rw [List.filterMap_eq_nil_iff]
    intro item hmem
    rcases hws item (List.mem_filter.mp hmem).1 with ⟨p, hw⟩
    rw [hwrongkey item p hw]
    rfl
  · rw [heq]
    simp [MasterPasswordService.unlockVault, hu, hd, hdecode,
      SecureVaultManager.unlockVault]
  · intro item payload hw
    rw [heq]
    have heq2 : MasterPasswordService.unlockVault
        ({ s with
            vaultManager :=
              { vaultKey := some
                  { masterKey := .derived wrong salt 100000,
                    salt := salt, timestamp := now },
                lockDeadline := some (now + AUTO_LOCK_TIME) },
            masterPasswordData := some { d with lastUsedTimestamp := now },
            stored := lsSet s.stored
              (MasterPasswordService.getUserStorageKey d.userUid)
              { d with lastUsedTimestamp := now } }) correct now2 =
      ({ s with
          vaultManager :=
            { vaultKey := some
                { masterKey := .derived correct salt 100000,
                  salt := salt, timestamp := now2 },
              lockDeadline := some (now2 + AUTO_LOCK_TIME) },
          masterPasswordData := some { d with lastUsedTimestamp := now2 },
          stored := lsSet
            (lsSet s.stored (MasterPasswordService.getUserStorageKey d.userUid)
              { d with lastUsedTimestamp := now })
            (MasterPasswordService.getUserStorageKey d.userUid)
            { d with lastUsedTimestamp := now2 } },
        { success := true, error := none, requiresSetup := none }) := by
      simp [MasterPasswordService.unlockVault, hu, hd, hdecode,
        SecureVaultManager.unlockVault, SecureVaultManager.resetLockTimer,
        deriveKeyFromPassword]
    rw [heq2]
    rcases hw with ⟨keyBytes, iv1, iv2, hkb, hkey, hdata⟩
    have h2 : base64ToArrayBuffer (arrayBufferToBase64 keyBytes) = some keyBytes :=
      b64DecodeChars_b64EncodeBytes keyBytes hkb
    simp only [decryptItem, hkey, hdata]
    simp [decryptData, encryptData, importKey]
    show (match base64ToArrayBuffer (arrayBufferToBase64 keyBytes) with
        | none => Except.error "InvalidCharacterError: atob failed"
        | some keyBytes2 =>
          if keyBytes = keyBytes2 then Except.ok payload
          else Except.error "Decryption failed - invalid key or corrupted data") =
      Except.ok payload
    rw [h2]
    simp

/-- C1 witness: The amended theorem at the concrete `u1` scenario. -/
theorem c1_witness :
    (MasterPasswordService.unlockVault c1State "wrong-password" 1000).2 =
      { success := true, error := none, requiresSetup := none } ∧
    (∀ item payload,
      wrappedUnder (.derived "Tr0ub4dor&3xyz" [0] 100000) payload item →
      decryptItem
          (MasterPasswordService.unlockVault c1State "wrong-password"
            1000).1.vaultManager.vaultKey item =
        .error "Decryption failed - invalid key or corrupted data") ∧
    (∀ t items,
      (∀ i ∈ items, ∃ p, wrappedUnder (.derived "Tr0ub4dor&3xyz" [0] 100000) p i) →
      getItemsByType
        (MasterPasswordService.unlockVault c1State "wrong-password"
          1000).1.vaultManager.vaultKey items t = []) ∧
    (MasterPasswordService.unlockVault
        (MasterPasswordService.unlockVault c1State "wrong-password" 1000).1
        "Tr0ub4dor&3xyz" 2000).2 =
      { success := true, error := none, requiresSetup := none } ∧
    (∀ item payload,
      wrappedUnder (.derived "Tr0ub4dor&3xyz" [0] 100000) payload item →
      decryptItem
          (MasterPasswordService.unlockVault
            (MasterPasswordService.unlockVault c1State "wrong-password" 1000).1
            "Tr0ub4dor&3xyz" 2000).1.vaultManager.vaultKey item = .ok payload) :=
  c1_amended_wrong_password c1State _ _ [0] "Tr0ub4dor&3xyz" "wrong-password"
    1000 2000 rfl rfl rfl (by decide) (by decide)

/-- Two lists with appended suffixes differ whenever the shorter suffix is
not the tail of the longer one. -/
theorem append_suffix_ne (xs ys u v : List Char) (hlen : u.length ≤ v.length)
    (hne : u.reverse ≠ v.reverse.take u.length) : xs ++ u ≠ ys ++ v := by
  intro h
  apply hne
  have h1 := congrArg List.reverse h
  rw [List.reverse_append, List.reverse_append] at h1
  have hA : (u.reverse ++ xs.reverse).take u.length = u.reverse :=
    List.take_left' (by simp)
  have hB : (v.reverse ++ ys.reverse).take u.length = v.reverse.take u.length := by
    rw [List.take_append_eq_append_take]
    have hz : u.length - v.reverse.length = 0 := by
      simp only [List.length_reverse]
      omega
    rw [hz]
    simp
  rw [← hA, h1, hB]

/-- Keys `a ++ "-" ++ t1` and `b ++ "-" ++ t2` differ when the dashed type
suffixes are incompatible. -/
theorem key_append_ne (a b t1 t2 : String)
    (hlen : ("-" ++ t1).data.length ≤ ("-" ++ t2).data.length)
    (hne : ("-" ++ t1).data.reverse ≠
      ("-" ++ t2).data.reverse.take ("-" ++ t1).data.length) :
    a ++ "-" ++ t1 ≠ b ++ "-" ++ t2 := by
  intro h
  have hd := congrArg String.data h
  rw [String.data_append, String.data_append, String.data_append,
    String.data_append, List.append_assoc, List.append_assoc,
    ← String.data_append, ← String.data_append] at hd
  exact append_suffix_ne a.data b.data ("-" ++ t1).data ("-" ++ t2).data hlen hne hd

/-- Cancelling an identical dashed suffix. -/
theorem key_append_cancel (a b t : String) (h : a ++ "-" ++ t = b ++ "-" ++ t) :
    a = b := by
  have hd := congrArg String.data h
  rw [String.data_append, String.data_append, String.data_append,
    String.data_append] at hd
  have h1 := (List.append_inj' hd rfl).1
  have h2 := (List.append_inj' h1 rfl).1
  exact String.ext h2

/-- The merge key `id ++ "-" ++ type` is injective when both types are
among the four known enum values (their dashed forms are never suffixes of
one another). -/
theorem mergeKey_inj (a b t1 t2 : String) (h1 : t1 ∈ knownItemTypes)
    (h2 : t2 ∈ knownItemTypes) (h : a ++ "-" ++ t1 = b ++ "-" ++ t2) :
    a = b ∧ t1 = t2 := by
  fin_cases h1 <;> fin_cases h2 <;>
    first
      | exact ⟨key_append_cancel a b _ h, rfl⟩
      | exact absurd h (key_append_ne a b _ _ (by decide) (by decide))
      | exact absurd h.symm (key_append_ne b a _ _ (by decide) (by decide))

/-- An item as the structural validator and the merge both see it: a string
`id`, and a string `type` among the known enum values. -/
def properItem (i : JsonValue) : Prop :=
  ∃ s t, getField i "id" = some (.str s) ∧ getField i "type" = some (.str t) ∧
    t ∈ knownItemTypes

/-- Equal `(id, type)` properties. -/
def sameIdType (e i : JsonValue) : Prop :=
  getField e "id" = getField i "id" ∧ getField e "type" = getField i "type"

theorem itemMergeKey_proper {i : JsonValue} {s t : String}
    (hid : getField i "id" = some (.str s))
    (hty : getField i "type" = some (.str t)) :
    itemMergeKey i = s ++ "-" ++ t := by
  simp [itemMergeKey, jsTemplateStr, hid, hty]

theorem itemMergeKey_eq_of_same {e i : JsonValue} (h : sameIdType e i) :
    itemMergeKey e = itemMergeKey i := by
  rcases h with ⟨h1, h2⟩
  simp [itemMergeKey, h1, h2]

theorem sameIdType_of_itemMergeKey_eq {e i : JsonValue}
    (he : properItem e) (hi : properItem i)
    (h : itemMergeKey e = itemMergeKey i) : sameIdType e i := by
  rcases he with ⟨se, te, hide, htye, hmeme⟩
  rcases hi with ⟨si, ti, hidi, htyi, hmemi⟩
  rw [itemMergeKey_proper hide htye, itemMergeKey_proper hidi htyi] at h
  rcases mergeKey_inj se si te ti hmeme hmemi h with ⟨rfl, rfl⟩
  exact ⟨hide.trans hidi.symm, htye.trans htyi.symm⟩

/-- C8: A merge import appends to the existing items exactly those
incoming items whose `(id, type)` pair does not occur in the existing
container: existing records always survive, an incoming record whose
`(id, type)` matches an existing one is discarded, and every other incoming
record is added. -/
theorem c8_merge_semantics (store : Option StoredBlob) (ex j : JsonValue)
    (exItems imItems : List JsonValue)
    (hstore : store = some (.parsed ex))
    (hex : getField ex "items" = some (.arr exItems))
    (him : getField j "items" = some (.arr imItems))
    (hvalid : isValidVaultData j = true)
    (hprop : ∀ i ∈ exItems ++ imItems, properItem i) :
    ∃ newItems : List JsonValue,
      importVault (some j) store true =
        (some (.parsed (setField ex "items" (.arr (exItems ++ newItems)))), .ok ()) ∧
      newItems.Sublist imItems ∧
      (∀ i ∈ imItems, (i ∈ newItems ↔ ¬ ∃ e ∈ exItems, sameIdType e i)) := by
  refine ⟨imItems.filter
    (fun i => !((exItems.map itemMergeKey).contains (itemMergeKey i))), ?_, ?_, ?_⟩
  · rw [hstore]
    simp only [importVault, hvalid, Bool.not_true, Bool.false_eq_true, if_false,
      ite_false, if_true, ite_true, loadVaultData, hex, him]
  · exact List.filter_sublist imItems
  · intro i hi
    have hpi : properItem i := hprop i (List.mem_append_right _ hi)
    rw [List.mem_filter]
    constructor
    · rintro ⟨-, hpred⟩ ⟨e, he, hsame⟩
      have hkey : itemMergeKey e = itemMergeKey i := itemMergeKey_eq_of_same hsame
      have hmem : itemMergeKey i ∈ exItems.map itemMergeKey :=
        hkey ▸ List.mem_map_of_mem itemMergeKey he
      simp only [Bool.not_eq_true'] at hpred
      exact absurd hmem (by simpa using hpred)
    · intro hnot
      refine ⟨hi, ?_⟩
      simp only [Bool.not_eq_true']
      by_contra hc
      have hcont : (exItems.map itemMergeKey).contains (itemMergeKey i) = true := by
        revert hc
        cases (exItems.map itemMergeKey).contains (itemMergeKey i) <;> simp
      have hmem : itemMergeKey i ∈ exItems.map itemMergeKey := by simpa using hcont
      rcases List.mem_map.mp hmem with ⟨e, he, hkey⟩
      exact hnot ⟨e, he, sameIdType_of_itemMergeKey_eq
        (hprop e (List.mem_append_left _ he)) hpi hkey⟩

/-- Existing container item for the C8 witness: `(id "a", type password)`. -/
def c8ExistingItem : JsonValue :=
  .obj [("id", .str "a"), ("encryptedData", .obj []), ("encryptedKey", .obj []),
        ("lastModified", .num 1), ("type", .str "password")]

/-- Incoming duplicate of `(id "a", type password)` with different
content. -/
def c8DupItem : JsonValue :=
  .obj [("id", .str "a"), ("encryptedData", .obj [("iv", .str "x")]),
        ("encryptedKey", .obj []), ("lastModified", .num 2),
        ("type", .str "password")]

/-- Incoming item with a fresh `(id "b", type note)` pair. -/
def c8NewItem : JsonValue :=
  .obj [("id", .str "b"), ("encryptedData", .obj []), ("encryptedKey", .obj []),
        ("lastModified", .num 3), ("type", .str "note")]

/-- Existing container for the C8 witness. -/
def c8Existing : JsonValue :=
  .obj [("version", .str "1.0.0"), ("items", .arr [c8ExistingItem])]

/-- Incoming container for the C8 witness. -/
def c8Incoming : JsonValue :=
  .obj [("version", .str "1.0.0"), ("items", .arr [c8DupItem, c8NewItem])]

/-- C8 witness: The merge at a concrete pair of containers: the
duplicate `(a, password)` is discarded, the fresh `(b, note)` is added. -/
theorem c8_witness :
    ∃ newItems : List JsonValue,
      importVault (some c8Incoming) (some (.parsed c8Existing)) true =
        (some (.parsed (setField c8Existing "items"
          (.arr ([c8ExistingItem] ++ newItems)))), .ok ()) ∧
      newItems.Sublist [c8DupItem, c8NewItem] ∧
      (∀ i ∈ [c8DupItem, c8NewItem],
        (i ∈ newItems ↔ ¬ ∃ e ∈ [c8ExistingItem], sameIdType e i)) :=
  c8_merge_semantics (some (.parsed c8Existing)) c8Existing c8Incoming
    [c8ExistingItem] [c8DupItem, c8NewItem] rfl rfl rfl rfl
    (by
      intro i hi
      simp only [List.cons_append, List.nil_append, List.mem_cons,
        List.not_mem_nil, or_false] at hi
      rcases hi with rfl | rfl | rfl
      · exact ⟨"a", "password", rfl, rfl, by decide⟩
      · exact ⟨"a", "password", rfl, rfl, by decide⟩
      · exact ⟨"b", "note", rfl, rfl, by decide⟩)
